import Mathlib

/-!
Verification of the WraithSwap ASB monitor (`src/main.rs`): a read-only
terminal dashboard that polls an append-only SQLite table of swap state
transitions, derives the latest state per swap, detects state changes
across polls, and renders a table.

The Rust source is shallowly embedded below:
* `SwapRow`, `SwapView`, `build_views` — the change tracker (`build_views`),
  with the Rust `HashMap<String, String>` modelled as an association list
  with most-recent-insert-first lookup (`StateMap`).
* `DbRow`, `fetch_swaps_model` — the SQL query executed by `fetch_swaps`,
  modelled over an explicit table given as a list of rows with unique
  row ids.
* `RStr`, `truncate_id`, `trunc_entered_at`, `format_state` — the renderer,
  with Rust strings modelled as lists of Unicode scalar values so that
  byte-indexed slicing (which panics off a char boundary) is Option-valued.
* `Env`, `LoopState`, `tick` — one iteration of the main loop.
-/

/-- Structure `SwapRow` from src/main.rs: one row returned by the latest-state query. -/
structure SwapRow where
  swap_id : String
  state : String
  entered_at : String
deriving DecidableEq, Repr

/-- Structure `SwapView` from src/main.rs: a `SwapRow` plus the per-poll `changed` flag. -/
structure SwapView where
  swap_id : String
  state : String
  entered_at : String
  changed : Bool
deriving DecidableEq, Repr

/-- The change tracker's `HashMap<String, String>`, modelled as an
association list; `mapInsert` prepends and `mapFind` returns the most
recent binding, giving the map's insert-overwrite lookup semantics. -/
abbrev StateMap := List (String × String)

/-- Lookup in the modelled map (`prev.get(&row.swap_id)`). -/
def mapFind : StateMap → String → Option String
  | [], _ => none
  | (k, v) :: rest, k' => if k = k' then some v else mapFind rest k'

/-- Insert, overwriting, in the modelled map (`prev.insert(...)`). -/
def mapInsert (k v : String) (m : StateMap) : StateMap := (k, v) :: m

/-- A key is present in the modelled map. -/
def mapMem (m : StateMap) (k : String) : Bool := (mapFind m k).isSome

/-- Function `build_views` from src/main.rs: for each row in order, `changed` is true
iff the id was already mapped to a different state; the mapping is then
overwritten with the current state.  The Rust function mutates `prev` in
place; here the updated map is returned as the second component. -/
def build_views : List SwapRow → StateMap → List SwapView × StateMap
  | [], prev => ([], prev)
  | row :: rest, prev =>
      let prev_state := mapFind prev row.swap_id
      let changed := prev_state.isSome &&
        match prev_state with
        | some s => decide (s ≠ row.state)
        | none => false
      let prev2 := mapInsert row.swap_id row.state prev
      let rec_result := build_views rest prev2
      ({ swap_id := row.swap_id, state := row.state,
         entered_at := row.entered_at, changed := changed } :: rec_result.1,
       rec_result.2)

/-- The `changed` expression of `build_views` evaluated against a given map:
`prev_state.is_some() && prev_state.as_deref() != Some(row.state)`. -/
def changedOf (m : StateMap) (row : SwapRow) : Bool :=
  match mapFind m row.swap_id with
  | some s => decide (s ≠ row.state)
  | none => false

/-- One insert step of `build_views` (`prev.insert(row.swap_id, row.state)`). -/
def insStep (m : StateMap) (row : SwapRow) : StateMap :=
  mapInsert row.swap_id row.state m

/-- The `changed` flags produced when the same identifier is observed across
a sequence of polls, one record per poll, threading the tracker map. -/
def pollFlags (id : String) (states : List String) (m : StateMap) : List Bool :=
  match states with
  | [] => []
  | s :: rest =>
      let step := build_views [{ swap_id := id, state := s, entered_at := "" }] m
      (step.1.map (·.changed)) ++ pollFlags id rest step.2

/-- The flags predicted for states following a first observed state `p`:
each flag is `Si != S(i-1)`. -/
def expectedTail (p : String) : List String → List Bool
  | [] => []
  | s :: rest => decide (s ≠ p) :: expectedTail s rest

/-- The flags the spec predicts for states `S1..Sk`: false on the first poll,
then `Si != S(i-1)`. -/
def expectedFlags : List String → List Bool
  | [] => []
  | s :: rest => false :: expectedTail s rest

/-- One row of the append-only `swap_states` table: the implicit SQLite
rowid `id` plus the three declared columns. -/
structure DbRow where
  id : Nat
  swap_id : String
  state : String
  entered_at : String
deriving DecidableEq, Repr

/-- The distinct `swap_id` values of the table (the SQL `GROUP BY swap_id`). -/
def distinctSwapIds (t : List DbRow) : List String := (t.map (·.swap_id)).dedup

/-- Maximum `MAX(id)` over the group of rows with the given `swap_id`. -/
def groupMaxId (t : List DbRow) (sid : String) : Nat :=
  ((t.filter (fun r => decide (r.swap_id = sid))).map (·.id)).foldr max 0

/-- The multiset `SELECT MAX(id) FROM swap_states GROUP BY swap_id`. -/
def maxIdSet (t : List DbRow) : List Nat := (distinctSwapIds t).map (groupMaxId t)

/-- Relation for `ORDER BY entered_at DESC` on rows. -/
def entDesc (a b : DbRow) : Prop := b.entered_at ≤ a.entered_at

instance : DecidableRel entDesc := fun a b =>
  inferInstanceAs (Decidable (b.entered_at ≤ a.entered_at))

instance : IsTotal DbRow entDesc :=
  ⟨fun a b => (le_total b.entered_at a.entered_at).imp id id⟩

instance : IsTrans DbRow entDesc :=
  ⟨fun _ _ _ h1 h2 => le_trans h2 h1⟩

/-- The query in `fetch_swaps`:
`SELECT swap_id, state, entered_at FROM swap_states
 WHERE id IN (SELECT MAX(id) FROM swap_states GROUP BY swap_id)
 ORDER BY entered_at DESC`,
modelled over the table contents `t`. -/
def fetch_swaps_model (t : List DbRow) : List DbRow :=
  List.insertionSort entDesc (t.filter (fun r => decide (r.id ∈ maxIdSet t)))

/-- A Rust `&str` as its list of Unicode scalar values (codepoints). -/
abbrev RStr := List Nat

/-- UTF-8 encoded length in bytes of one Unicode scalar value. -/
def utf8Len (c : Nat) : Nat :=
  if c < 0x80 then 1 else if c < 0x800 then 2 else if c < 0x10000 then 3 else 4

/-- Rust `str::len()`: length in UTF-8 bytes. -/
def byteLen (s : RStr) : Nat := (s.map utf8Len).foldr (· + ·) 0

/-- The Rust byte slice `&s[0..n]`: `some` prefix when byte index `n` falls
on a character boundary, `none` when the slice panics mid-character. -/
def takeBytes : RStr → Nat → Option RStr
  | _, 0 => some []
  | [], _ + 1 => none
  | c :: cs, n + 1 =>
      if utf8Len c ≤ n + 1 then
        (takeBytes cs (n + 1 - utf8Len c)).map (fun p => c :: p)
      else none

/-- The codepoints of the `".."` ellipsis marker appended by `truncate_id`. -/
def dotdot : RStr := [0x2E, 0x2E]

/-- Function `truncate_id` from src/main.rs: ids of at most 8 bytes are returned
unmodified, longer ids become `&id[0..6]` plus `".."`; `none` models the
panic when byte 6 is not a character boundary. -/
def truncate_id (id : RStr) : Option RStr :=
  if byteLen id ≤ 8 then some id
  else (takeBytes id 6).map (fun p => p ++ dotdot)

/-- The timestamp truncation in `render_table`:
`if entered_at.len() > 23 { &entered_at[..23] } else { &entered_at }`. -/
def trunc_entered_at (e : RStr) : Option RStr :=
  if byteLen e > 23 then takeBytes e 23 else some e

/-- The per-row string processing of `render_table`: `none` models a panic
in either truncation. -/
def render_row (swap_id entered_at : RStr) : Option (RStr × RStr) :=
  match truncate_id swap_id, trunc_entered_at entered_at with
  | some i, some t => some (i, t)
  | _, _ => none

/-- The colors applied by `format_state` via the `colored` crate. -/
inductive Color where
  | cyan | blue | yellow | green | magenta | red | dim | normal
deriving DecidableEq, Repr

/-- A colored string as produced by `format_state`. -/
structure Styled where
  text : String
  color : Color
  bold : Bool
deriving DecidableEq, Repr

/-- The known lifecycle labels matched by `format_state`. -/
def knownLabels : List String :=
  ["Started", "BtcLockProofReceived", "XmrLockProofSent", "EncSigSent",
   "BtcRedeemed", "XmrRefunded", "BtcCancelled", "BtcPunished", "SafelyAborted"]

/-- The `match state` arm of `format_state` in src/main.rs. -/
def stateBase (state : String) : Styled :=
  match state with
  | "Started" => { text := state, color := Color.cyan, bold := false }
  | "BtcLockProofReceived" => { text := state, color := Color.blue, bold := false }
  | "XmrLockProofSent" => { text := state, color := Color.blue, bold := false }
  | "EncSigSent" => { text := state, color := Color.yellow, bold := false }
  | "BtcRedeemed" => { text := state ++ " ✓", color := Color.green, bold := false }
  | "XmrRefunded" => { text := state, color := Color.magenta, bold := false }
  | "BtcCancelled" => { text := state, color := Color.magenta, bold := false }
  | "BtcPunished" => { text := state, color := Color.red, bold := false }
  | "SafelyAborted" => { text := state, color := Color.dim, bold := false }
  | _ => { text := state, color := Color.normal, bold := false }

/-- Function `format_state` from src/main.rs: the colored base, bolded when changed. -/
def format_state (state : String) (changed : Bool) : Styled :=
  let base := stateBase state
  if changed then { base with bold := true } else base

/-- The per-tick environment of the main loop: whether the resolved path
exists on disk this tick, and the outcomes the database would give to a
connect and to the latest-state query this tick. -/
structure Env where
  pathExists : Bool
  connectResult : Except String Nat
  queryResult : Except String (List SwapRow)

/-- The loop-carried state of `main`: the optional pool handle and the
change tracker map (`previous_states`). -/
structure LoopState where
  pool : Option Nat
  prev : StateMap

/-- What one loop iteration renders below the header. -/
inductive Output where
  | table (views : List SwapView)
  | noSwaps
  | connectError (e : String)
  | queryError (e : String)
  | dbNotFound
  | noPath
deriving DecidableEq, Repr

/-- The message line rendered for each outcome (colors omitted). -/
def output_text : Output → String
  | Output.table _ => "<table>"
  | Output.noSwaps => "No swaps yet."
  | Output.connectError e => "Error: Failed to connect (read-only): " ++ e
  | Output.queryError e => "Error: Failed to query swaps: " ++ e
  | Output.dbNotFound => "Error: Database not found yet"
  | Output.noPath => "Error: Could not resolve ASB data directory for this OS."

/-- The query half of a tick: `fetch_swaps` succeeded or failed; on failure
the pool is dropped (`pool = None`) so the next tick reconnects. -/
def tickQuery (p : Nat) (env : Env) (s : LoopState) : LoopState × Output :=
  match env.queryResult with
  | Except.error e => ({ pool := none, prev := s.prev }, Output.queryError e)
  | Except.ok rows =>
      if rows.isEmpty then
        ({ pool := some p, prev := s.prev }, Output.noSwaps)
      else
        let vp := build_views rows s.prev
        ({ pool := some p, prev := vp.2 }, Output.table vp.1)

/-- One iteration of the `loop` in `main`: re-check the path, connect if no
pool is held, then query; `hasPath` is whether `resolve_asb_db_path`
returned `Some`. -/
def tick (hasPath : Bool) (env : Env) (s : LoopState) : LoopState × Output :=
  if hasPath then
    if env.pathExists then
      match s.pool with
      | none =>
          match env.connectResult with
          | Except.error e => ({ pool := none, prev := s.prev }, Output.connectError e)
          | Except.ok p => tickQuery p env s
      | some p => tickQuery p env s
    else (s, Output.dbNotFound)
  else (s, Output.noPath)

/-- The connect options built by `open_read_only_pool`:
`.read_only(true).create_if_missing(false)`. -/
structure SqliteOpts where
  read_only : Bool
  create_if_missing : Bool
deriving DecidableEq, Repr

/-- The options value constructed in `open_read_only_pool` in src/main.rs. -/
def open_read_only_opts : SqliteOpts :=
  { read_only := true, create_if_missing := false }

/-- A live SQLite connection, recording whether it holds write capability. -/
structure SqliteConn where
  writable : Bool
deriving DecidableEq, Repr

/-- Modelled from the spec: the SQLite driver's connect behavior (the sqlx
library, external to src/) — with `create_if_missing` disabled, connecting
to a nonexistent file fails instead of creating an empty database, and a
`read_only` connection takes no write capability on the file. -/
def sqlite_connect (opts : SqliteOpts) (fileExists : Bool) :
    Except String SqliteConn :=
  if !fileExists && !opts.create_if_missing then
    Except.error "unable to open database file"
  else
    Except.ok { writable := !opts.read_only }

/-- Function `open_read_only_pool` from src/main.rs, composed with the modelled
driver: connect with read-only, no-create options. -/
def open_read_only_pool (fileExists : Bool) : Except String SqliteConn :=
  sqlite_connect open_read_only_opts fileExists

/-! ### Basic lemmas about the modelled `HashMap` -/

theorem mapFind_insert_self (k v : String) (m : StateMap) :
    mapFind (mapInsert k v m) k = some v := by
  simp [mapInsert, mapFind]

theorem mapFind_insert_ne (k v k' : String) (m : StateMap) (h : k ≠ k') :
    mapFind (mapInsert k v m) k' = mapFind m k' := by
  simp [mapInsert, mapFind, h]

theorem mapMem_insert (k v k' : String) (m : StateMap) :
    mapMem (mapInsert k v m) k' = true ↔ k = k' ∨ mapMem m k' = true := by
  by_cases h : k = k' <;>
    simp [mapMem, mapInsert, mapFind, h]

/-! ### Structure of `build_views` -/

theorem build_views_snd (rows : List SwapRow) (prev : StateMap) :
    (build_views rows prev).2 = rows.foldl insStep prev := by
  induction rows generalizing prev with
  | nil => rfl
  | cons r rest ih => simp [build_views, insStep, ih]

theorem build_views_length (rows : List SwapRow) (prev : StateMap) :
    (build_views rows prev).1.length = rows.length := by
  induction rows generalizing prev with
  | nil => rfl
  | cons r rest ih => simp [build_views, ih]

theorem changed_expr_eq (m : StateMap) (row : SwapRow) :
    ((mapFind m row.swap_id).isSome &&
      match mapFind m row.swap_id with
      | some s => decide (s ≠ row.state)
      | none => false) = changedOf m row := by
  cases h : mapFind m row.swap_id <;> simp [changedOf, h]

theorem build_views_getElem (rows : List SwapRow) (prev : StateMap) (i : Nat) :
    (build_views rows prev).1[i]? =
      (rows[i]?).map (fun r =>
        { swap_id := r.swap_id, state := r.state, entered_at := r.entered_at,
          changed := changedOf ((rows.take i).foldl insStep prev) r }) := by
  induction rows generalizing prev i with
  | nil => simp [build_views]
  | cons r rest ih =>
      cases i with
      | zero =>
          simp only [build_views, List.getElem?_cons_zero, List.take_zero,
            List.foldl_nil]
          rw [changed_expr_eq prev r]
          rfl
      | succ j =>
          simp only [build_views, List.getElem?_cons_succ, List.take_succ_cons,
            List.foldl_cons]
          exact ih (insStep prev r) j

theorem mapFind_foldl_notmem (l : List SwapRow) (m : StateMap) (k : String)
    (h : k ∉ l.map (·.swap_id)) :
    mapFind (l.foldl insStep m) k = mapFind m k := by
  induction l generalizing m with
  | nil => rfl
  | cons a rest ih =>
      simp only [List.map_cons, List.mem_cons] at h
      push_neg at h
      rw [List.foldl_cons, ih (insStep m a) h.2, insStep,
        mapFind_insert_ne _ _ _ _ (fun he => h.1 he.symm)]

theorem swap_id_notmem_take (rows : List SwapRow) (i : Nat) (r : SwapRow)
    (hnd : (rows.map (·.swap_id)).Nodup) (hr : rows[i]? = some r) :
    r.swap_id ∉ (rows.take i).map (·.swap_id) := by
  have hsplit : rows.take i ++ rows.drop i = rows := List.take_append_drop i rows
  have hnd2 : ((rows.take i).map (·.swap_id) ++ (rows.drop i).map (·.swap_id)).Nodup := by
    rw [← List.map_append, hsplit]; exact hnd
  have hdisj := List.disjoint_of_nodup_append hnd2
  have hmem : r ∈ rows.drop i := by
    have : (rows.drop i)[0]? = some r := by
      rw [List.getElem?_drop]; simpa using hr
    exact List.getElem?_mem this
  exact fun hc => hdisj hc (List.mem_map_of_mem (·.swap_id) hmem)

theorem changedOf_congr (m1 m2 : StateMap) (row : SwapRow)
    (h : mapFind m1 row.swap_id = mapFind m2 row.swap_id) :
    changedOf m1 row = changedOf m2 row := by
  unfold changedOf; rw [h]

theorem mapFind_foldl_last (rows : List SwapRow) (prev : StateMap)
    (hnd : (rows.map (·.swap_id)).Nodup) (r : SwapRow) (hr : r ∈ rows) :
    mapFind (rows.foldl insStep prev) r.swap_id = some r.state := by
  obtain ⟨l1, l2, rfl⟩ := List.append_of_mem hr
  rw [List.foldl_append, List.foldl_cons]
  have hnotmem : r.swap_id ∉ l2.map (·.swap_id) := by
    rw [List.map_append, List.map_cons] at hnd
    exact (List.nodup_cons.mp (hnd.of_append_right)).1
  rw [mapFind_foldl_notmem l2 _ _ hnotmem, insStep, mapFind_insert_self]

theorem mapMem_foldl (rows : List SwapRow) (m : StateMap) (k : String) :
    mapMem (rows.foldl insStep m) k = true ↔
      k ∈ rows.map (·.swap_id) ∨ mapMem m k = true := by
  induction rows generalizing m with
  | nil => simp
  | cons a rest ih =>
      rw [List.foldl_cons, ih (insStep m a)]
      rw [insStep, mapMem_insert]
      simp only [List.map_cons, List.mem_cons]
      tauto

theorem pollFlags_of_find_some (id : String) (states : List String) :
    ∀ (m : StateMap) (p : String), mapFind m id = some p →
      pollFlags id states m = expectedTail p states := by
  induction states with
  | nil => intro m p _; rfl
  | cons s rest ih =>
      intro m p hp
      have hne : (decide (p ≠ s)) = (decide (s ≠ p)) :=
        decide_eq_decide.mpr ne_comm
      simp only [pollFlags, build_views, hp, expectedTail, Option.isSome_some,
        Bool.true_and, List.map_cons, List.map_nil, List.cons_append,
        List.nil_append, hne, List.cons.injEq]
      exact ⟨trivial, ih (mapInsert id s m) s (mapFind_insert_self id s m)⟩

theorem pollFlags_of_empty (id : String) (states : List String) :
    pollFlags id states [] = expectedFlags states := by
  cases states with
  | nil => rfl
  | cons s rest =>
      have hfind : mapFind ([] : StateMap) id = none := rfl
      simp only [pollFlags, build_views, hfind, Option.isSome_none,
        Bool.false_and, List.map_cons, List.map_nil, List.cons_append,
        List.nil_append, expectedFlags, List.cons.injEq]
      exact ⟨trivial, pollFlags_of_find_some id rest (mapInsert id s [])
        s (mapFind_insert_self id s [])⟩

/-- C1. For every poll (a list of records with pairwise-distinct
identifiers, as every result of the latest-state query has) processed by
`build_views` against any tracker map, a record's `changed` flag is true iff
its `swap_id` was present in the map before this poll with a state different
from the record's current state; and for a single identifier observed across
polls with states `S1..Sk` starting from the empty map, the flags are
`false` on poll 1 and `Si != S(i-1)` on poll `i > 1`. -/
theorem changed_flag_spec :
    (∀ (prev : StateMap) (rows : List SwapRow) (i : Nat) (r : SwapRow)
        (v : SwapView),
        (rows.map (·.swap_id)).Nodup →
        rows[i]? = some r →
        (build_views rows prev).1[i]? = some v →
        (v.changed = true ↔
          ∃ s, mapFind prev r.swap_id = some s ∧ s ≠ r.state))
    ∧ (∀ (id : String) (states : List String),
        pollFlags id states [] = expectedFlags states) := by
  constructor
  · intro prev rows i r v hnd hr hv
    rw [build_views_getElem, hr, Option.map_some'] at hv
    have hv2 : v.changed = changedOf ((rows.take i).foldl insStep prev) r := by
      rw [← Option.some_inj.mp hv]
    have hfind : mapFind ((rows.take i).foldl insStep prev) r.swap_id =
        mapFind prev r.swap_id :=
      mapFind_foldl_notmem _ _ _ (swap_id_notmem_take rows i r hnd hr)
    rw [hv2, changedOf_congr _ prev r hfind]
    cases hf : mapFind prev r.swap_id <;> simp [changedOf, hf]
  · exact pollFlags_of_empty

/-- Witness for C1 at concrete inputs: the prior map binds `"a"` to `"S1"`,
the poll reports state `"S2"`, so the flag is true; and the run
`S1, S2, S2` yields flags `false, true, false`. -/
theorem changed_flag_spec_witness :
    ({ swap_id := "a", state := "S2", entered_at := "t",
       changed := true } : SwapView).changed = true
    ∧ pollFlags "b" ["S1", "S2", "S2"] [] = [false, true, false] :=
  ⟨(changed_flag_spec.1 [("a", "S1")]
      [{ swap_id := "a", state := "S2", entered_at := "t" }] 0
      { swap_id := "a", state := "S2", entered_at := "t" }
      { swap_id := "a", state := "S2", entered_at := "t", changed := true }
      (by decide) (by decide) (by decide)).mpr ⟨"S1", by decide, by decide⟩,
   (changed_flag_spec.2 "b" ["S1", "S2", "S2"]).trans (by decide)⟩

/-- Counterexample to C4 as stated for a fully arbitrary record list: with
two records sharing `swap_id` `"a"` in one call, the identifier is inserted
twice and the final mapping entry is not the first record's state. -/
theorem diff_map_once_counterexample :
    ({ swap_id := "a", state := "S1", entered_at := "" } : SwapRow) ∈
      ([{ swap_id := "a", state := "S1", entered_at := "" },
        { swap_id := "a", state := "S2", entered_at := "" }] : List SwapRow)
    ∧ mapFind (build_views
        [{ swap_id := "a", state := "S1", entered_at := "" },
         { swap_id := "a", state := "S2", entered_at := "" }] []).2 "a"
        ≠ some "S1" := by
  constructor
  · exact List.mem_cons_self _ _
  · decide

/-- C4, amended. For every call to `build_views` with any prior mapping:
the final mapping is exactly one insert per record, in the order the records
are presented (so for a poll, whose identifiers are pairwise distinct,
exactly one mutation per identifier); under that distinctness each record's
identifier ends up mapped to that record's current state; and a key is
present afterwards iff it was an identifier of this call or was already
present — so no key is ever removed and the key set is bounded by the
identifiers ever observed. -/
theorem diff_map_update (rows : List SwapRow) (prev : StateMap) :
    ((build_views rows prev).2 = rows.foldl insStep prev)
    ∧ ((rows.map (·.swap_id)).Nodup →
        ∀ r ∈ rows, mapFind (build_views rows prev).2 r.swap_id = some r.state)
    ∧ (∀ k, mapMem (build_views rows prev).2 k = true ↔
        (k ∈ rows.map (·.swap_id) ∨ mapMem prev k = true)) := by
  refine ⟨build_views_snd rows prev, ?_, ?_⟩
  · intro hnd r hr
    rw [build_views_snd]
    exact mapFind_foldl_last rows prev hnd r hr
  · intro k
    rw [build_views_snd]
    exact mapMem_foldl rows prev k

/-- Witness for C4 (amended) at a concrete call: after processing two
distinct identifiers over a one-entry prior map, `"a"` maps to its record's
state and the untouched prior key `"c"` is still present. -/
theorem diff_map_update_witness :
    mapFind (build_views
      [{ swap_id := "a", state := "S1", entered_at := "t1" },
       { swap_id := "b", state := "S2", entered_at := "t2" }]
      [("c", "S0")]).2 "a" = some "S1"
    ∧ mapMem (build_views
      [{ swap_id := "a", state := "S1", entered_at := "t1" },
       { swap_id := "b", state := "S2", entered_at := "t2" }]
      [("c", "S0")]).2 "c" = true :=
  ⟨(diff_map_update
      [{ swap_id := "a", state := "S1", entered_at := "t1" },
       { swap_id := "b", state := "S2", entered_at := "t2" }]
      [("c", "S0")]).2.1 (by decide)
      { swap_id := "a", state := "S1", entered_at := "t1" } (by decide),
   ((diff_map_update
      [{ swap_id := "a", state := "S1", entered_at := "t1" },
       { swap_id := "b", state := "S2", entered_at := "t2" }]
      [("c", "S0")]).2.2 "c").mpr (Or.inr (by decide))⟩

/-- Counterexample to C5 as stated for a fully arbitrary record list: with
two records sharing `swap_id` `"a"` but different states, the second
identical call still reports `changed = true` on both records. -/
theorem diff_idempotent_counterexample :
    ((build_views
        [{ swap_id := "a", state := "S1", entered_at := "" },
         { swap_id := "a", state := "S2", entered_at := "" }]
        (build_views
          [{ swap_id := "a", state := "S1", entered_at := "" },
           { swap_id := "a", state := "S2", entered_at := "" }] []).2).1.map
      (·.changed)) = [true, true] := by decide

/-- C5, amended. For every list of records with pairwise-distinct
identifiers (as every poll produced by the latest-state query has) and every
prior mapping, running `build_views` twice in a row on that same list yields
`changed = false` for every record of the second call. -/
theorem diff_idempotent (rows : List SwapRow) (prev : StateMap)
    (hnd : (rows.map (·.swap_id)).Nodup) :
    ∀ v ∈ (build_views rows (build_views rows prev).2).1, v.changed = false := by
  intro v hv
  obtain ⟨i, hi⟩ := List.mem_iff_getElem?.mp hv
  rw [build_views_getElem] at hi
  cases hr : rows[i]? with
  | none => rw [hr] at hi; simp at hi
  | some r =>
      rw [hr, Option.map_some'] at hi
      have hv2 : v.changed =
          changedOf ((rows.take i).foldl insStep
            (build_views rows prev).2) r := by
        rw [← Option.some_inj.mp hi]
      have hfind : mapFind ((rows.take i).foldl insStep
          (build_views rows prev).2) r.swap_id =
          mapFind (build_views rows prev).2 r.swap_id :=
        mapFind_foldl_notmem _ _ _ (swap_id_notmem_take rows i r hnd hr)
      have hlast : mapFind (build_views rows prev).2 r.swap_id =
          some r.state := by
        rw [build_views_snd]
        exact mapFind_foldl_last rows prev hnd r (List.getElem?_mem hr)
      rw [hv2, changedOf_congr _ _ _ hfind]
      unfold changedOf
      rw [hlast]
      simp

/-- Witness for C5 (amended) at a concrete call: re-running the same
one-record poll leaves its view unchanged-flagged false. -/
theorem diff_idempotent_witness :
    ({ swap_id := "a", state := "S1", entered_at := "t",
       changed := false } : SwapView) ∈
      (build_views [{ swap_id := "a", state := "S1", entered_at := "t" }]
        (build_views [{ swap_id := "a", state := "S1", entered_at := "t" }]
          []).2).1
    ∧ ({ swap_id := "a", state := "S1", entered_at := "t",
         changed := false } : SwapView).changed = false :=
  ⟨by decide,
   diff_idempotent [{ swap_id := "a", state := "S1", entered_at := "t" }] []
     (by decide) _ (by decide)⟩

/-! ### Renderer lemmas -/

theorem byteLen_ascii (s : RStr) (h : ∀ c ∈ s, utf8Len c = 1) :
    byteLen s = s.length := by
  induction s with
  | nil => rfl
  | cons c cs ih =>
      have hc : utf8Len c = 1 := h c (List.mem_cons_self c cs)
      have hcs : ∀ c' ∈ cs, utf8Len c' = 1 :=
        fun c' hc' => h c' (List.mem_cons_of_mem c hc')
      simp only [byteLen, List.map_cons, List.foldr_cons, hc] at *
      rw [ih hcs, List.length_cons, Nat.add_comm]

theorem takeBytes_ascii (s : RStr) :
    ∀ n, (∀ c ∈ s, utf8Len c = 1) → n ≤ s.length →
      takeBytes s n = some (s.take n) := by
  induction s with
  | nil =>
      intro n _ hn
      have : n = 0 := Nat.le_zero.mp hn
      subst this
      rfl
  | cons c cs ih =>
      intro n h hn
      cases n with
      | zero => rfl
      | succ m =>
          have hc : utf8Len c = 1 := h c (List.mem_cons_self c cs)
          have hcs : ∀ c' ∈ cs, utf8Len c' = 1 :=
            fun c' hc' => h c' (List.mem_cons_of_mem c hc')
          have hm : m ≤ cs.length := Nat.succ_le_succ_iff.mp (by simpa using hn)
          simp only [takeBytes, hc, Nat.one_le_iff_ne_zero, Nat.succ_sub_one]
          rw [if_pos (Nat.succ_ne_zero m), ih m hcs hm]
          simp [List.take_succ_cons]

/-- C6. An identifier of at most the 8-byte threshold renders unmodified;
an identifier one character past the threshold (9 single-byte characters)
renders as its 6-character prefix followed by the `".."` ellipsis marker,
a display form of the fixed width 8. -/
theorem truncate_id_boundary :
    (∀ id : RStr, byteLen id ≤ 8 → truncate_id id = some id)
    ∧ (∀ id : RStr, (∀ c ∈ id, utf8Len c = 1) → id.length = 9 →
        truncate_id id = some (id.take 6 ++ dotdot)
        ∧ (id.take 6 ++ dotdot).length = 8) := by
  constructor
  · intro id h
    unfold truncate_id
    rw [if_pos h]
  · intro id hascii hlen
    have hby : byteLen id = 9 := by rw [byteLen_ascii id hascii, hlen]
    have hnot : ¬ byteLen id ≤ 8 := by omega
    have htake : takeBytes id 6 = some (id.take 6) :=
      takeBytes_ascii id 6 hascii (by omega)
    constructor
    · unfold truncate_id
      rw [if_neg hnot, htake, Option.map_some']
    · simp [dotdot, hlen]

/-- Witness for C6 at concrete inputs: `"hello"` (5 bytes) is unchanged and
the 9-character `"abcdefghi"` becomes `"abcdef.."`, 8 characters wide. -/
theorem truncate_id_boundary_witness :
    truncate_id [104, 101, 108, 108, 111] = some [104, 101, 108, 108, 111]
    ∧ truncate_id [97, 98, 99, 100, 101, 102, 103, 104, 105] =
        some [97, 98, 99, 100, 101, 102, 46, 46]
    ∧ ([97, 98, 99, 100, 101, 102, 103, 104, 105].take 6 ++ dotdot).length = 8 :=
  ⟨truncate_id_boundary.1 [104, 101, 108, 108, 111] (by decide),
   ((truncate_id_boundary.2 [97, 98, 99, 100, 101, 102, 103, 104, 105]
      (by decide) (by decide)).1).trans (by decide),
   (truncate_id_boundary.2 [97, 98, 99, 100, 101, 102, 103, 104, 105]
      (by decide) (by decide)).2⟩

/-- C7. Rendering never fails for inputs shorter than expected: an
identifier of at most 8 bytes and a timestamp of at most 23 bytes pass
through `render_table`'s per-row truncations unmodified and without panic,
and a state label outside the known lifecycle set is styled with the
neutral `normal` color rather than erroring. -/
theorem render_short_and_fallback :
    (∀ (state : String) (changed : Bool), state ∉ knownLabels →
        (format_state state changed).color = Color.normal)
    ∧ (∀ (id ts : RStr), byteLen id ≤ 8 → byteLen ts ≤ 23 →
        render_row id ts = some (id, ts)) := by
  constructor
  · intro state changed hstate
    have hbase : (stateBase state).color = Color.normal := by
      unfold stateBase
      split <;> simp_all [knownLabels]
    unfold format_state
    cases changed <;> simp [hbase]
  · intro id ts hid hts
    unfold render_row truncate_id trunc_entered_at
    rw [if_pos hid, if_neg (by omega)]

/-- Witness for C7 at concrete inputs: the unknown label `"Weird"` falls
back to the neutral color, and a 5-byte id with a 19-byte timestamp
renders unmodified. -/
theorem render_short_and_fallback_witness :
    (format_state "Weird" true).color = Color.normal
    ∧ render_row [104, 101, 108, 108, 111]
        [50, 48, 50, 53, 45, 48, 49, 45, 48, 50, 32, 48, 51, 58, 48, 52, 58, 48, 53] =
      some ([104, 101, 108, 108, 111],
        [50, 48, 50, 53, 45, 48, 49, 45, 48, 50, 32, 48, 51, 58, 48, 52, 58, 48, 53]) :=
  ⟨render_short_and_fallback.1 "Weird" true (by decide),
   render_short_and_fallback.2 [104, 101, 108, 108, 111]
     [50, 48, 50, 53, 45, 48, 49, 45, 48, 50, 32, 48, 51, 58, 48, 52, 58, 48, 53]
     (by decide) (by decide)⟩

/-- Counterexample to C10 as stated: on `"aaaaa€x"` (9 bytes, with the
3-byte `€` spanning byte position 6) `truncate_id` slices mid-character,
i.e. the Rust code panics; the model returns `none`. -/
theorem truncation_total_counterexample :
    truncate_id [97, 97, 97, 97, 97, 0x20AC, 120] = none := by decide

/-- C10, amended. The truncations are total — return a value without
panicking — for every input that is at most the respective byte threshold
or consists of single-byte characters (so byte positions 6 and 23 fall on
character boundaries); they are not total over all Unicode strings. -/
theorem truncation_total :
    (∀ id : RStr, (byteLen id ≤ 8 ∨ ∀ c ∈ id, utf8Len c = 1) →
        (truncate_id id).isSome = true)
    ∧ (∀ ts : RStr, (byteLen ts ≤ 23 ∨ ∀ c ∈ ts, utf8Len c = 1) →
        (trunc_entered_at ts).isSome = true) := by
  constructor
  · intro id h
    unfold truncate_id
    by_cases hle : byteLen id ≤ 8
    · rw [if_pos hle]; rfl
    · rcases h with h | hascii
      · exact absurd h hle
      · rw [if_neg hle, takeBytes_ascii id 6 hascii
          (by rw [byteLen_ascii id hascii] at hle; omega)]
        rfl
  · intro ts h
    unfold trunc_entered_at
    by_cases hgt : byteLen ts > 23
    · rcases h with h | hascii
      · omega
      · rw [if_pos hgt, takeBytes_ascii ts 23 hascii
          (by rw [byteLen_ascii ts hascii] at hgt; omega)]
        rfl
    · rw [if_neg hgt]; rfl

/-- Witness for C10 (amended) at concrete inputs: a 10-character ASCII id
and a 25-character ASCII timestamp are truncated without panic. -/
theorem truncation_total_witness :
    (truncate_id [97, 98, 99, 100, 101, 102, 103, 104, 105, 106]).isSome = true
    ∧ (trunc_entered_at [50, 48, 50, 53, 45, 48, 49, 45, 48, 50, 32, 48, 51,
        58, 48, 52, 58, 48, 53, 46, 49, 50, 51, 52, 53]).isSome = true :=
  ⟨truncation_total.1 [97, 98, 99, 100, 101, 102, 103, 104, 105, 106]
      (Or.inr (by decide)),
   truncation_total.2 [50, 48, 50, 53, 45, 48, 49, 45, 48, 50, 32, 48, 51,
      58, 48, 52, 58, 48, 53, 46, 49, 50, 51, 52, 53] (Or.inr (by decide))⟩

/-! ### Loop behavior -/

/-- C3. When a query fails during a tick in the Connected state (a pool
is held and the path exists), the pool is discarded in that same tick, so the
system is Disconnected; on the next tick a fresh connect is attempted, and if
the database is reachable (connect and query succeed) the tick renders
successfully — no process restart involved. -/
theorem reconnect_after_query_failure
    (s : LoopState) (p p2 : Nat) (e : String) (env1 env2 : Env)
    (rows : List SwapRow)
    (hpool : s.pool = some p)
    (hex1 : env1.pathExists = true)
    (hq1 : env1.queryResult = Except.error e)
    (hex2 : env2.pathExists = true)
    (hc2 : env2.connectResult = Except.ok p2)
    (hq2 : env2.queryResult = Except.ok rows) :
    (tick true env1 s).2 = Output.queryError e
    ∧ (tick true env1 s).1.pool = none
    ∧ (tick true env2 (tick true env1 s).1).1.pool = some p2
    ∧ (tick true env2 (tick true env1 s).1).2 =
        (if rows.isEmpty then Output.noSwaps
         else Output.table (build_views rows s.prev).1) := by
  have h1 : tick true env1 s =
      ({ pool := none, prev := s.prev }, Output.queryError e) := by
    simp [tick, tickQuery, hpool, hex1, hq1]
  rw [h1]
  refine ⟨rfl, rfl, ?_, ?_⟩ <;>
    by_cases hrows : rows.isEmpty <;>
      simp [tick, tickQuery, hex2, hc2, hq2, hrows]

/-- Witness for C3 at concrete inputs: a held pool `1`, a failing query,
then a tick whose connect yields pool `2` and whose query returns one row. -/
theorem reconnect_after_query_failure_witness :
    (tick true (⟨true, Except.error "nc", Except.error "locked"⟩ : Env)
      (⟨some 1, [("a", "S1")]⟩ : LoopState)).2 = Output.queryError "locked"
    ∧ (tick true (⟨true, Except.error "nc", Except.error "locked"⟩ : Env)
      (⟨some 1, [("a", "S1")]⟩ : LoopState)).1.pool = none
    ∧ (tick true (⟨true, Except.ok 2, Except.ok [⟨"a", "S2", "t"⟩]⟩ : Env)
      (tick true (⟨true, Except.error "nc", Except.error "locked"⟩ : Env)
        (⟨some 1, [("a", "S1")]⟩ : LoopState)).1).1.pool = some 2
    ∧ (tick true (⟨true, Except.ok 2, Except.ok [⟨"a", "S2", "t"⟩]⟩ : Env)
      (tick true (⟨true, Except.error "nc", Except.error "locked"⟩ : Env)
        (⟨some 1, [("a", "S1")]⟩ : LoopState)).1).2 =
      Output.table [⟨"a", "S2", "t", true⟩] := by
  have h := reconnect_after_query_failure
    (⟨some 1, [("a", "S1")]⟩ : LoopState) 1 2 "locked"
    (⟨true, Except.error "nc", Except.error "locked"⟩ : Env)
    (⟨true, Except.ok 2, Except.ok [⟨"a", "S2", "t"⟩]⟩ : Env)
    [⟨"a", "S2", "t"⟩] rfl rfl rfl rfl rfl rfl
  exact ⟨h.1, h.2.1, h.2.2.1, h.2.2.2.trans (by decide)⟩

/-- C8. When the poll yields zero rows, the tick produces the
informative `"No swaps yet."` empty-state message, which is distinct from
every rendered table. -/
theorem empty_poll_message (env : Env) (s : LoopState) (p : Nat)
    (hpool : s.pool = some p)
    (hex : env.pathExists = true)
    (hq : env.queryResult = Except.ok ([] : List SwapRow)) :
    (tick true env s).2 = Output.noSwaps
    ∧ output_text Output.noSwaps = "No swaps yet."
    ∧ ∀ views, Output.noSwaps ≠ Output.table views := by
  refine ⟨?_, rfl, fun views h => Output.noConfusion h⟩
  simp [tick, tickQuery, hpool, hex, hq]

/-- Witness for C8 at concrete inputs: a connected state whose query
returns the empty list. -/
theorem empty_poll_message_witness :
    (tick true (⟨true, Except.error "nc", Except.ok []⟩ : Env)
      (⟨some 1, []⟩ : LoopState)).2 = Output.noSwaps
    ∧ output_text Output.noSwaps = "No swaps yet." :=
  ⟨(empty_poll_message (⟨true, Except.error "nc", Except.ok []⟩ : Env)
      (⟨some 1, []⟩ : LoopState) 1 rfl rfl rfl).1,
   (empty_poll_message (⟨true, Except.error "nc", Except.ok []⟩ : Env)
      (⟨some 1, []⟩ : LoopState) 1 rfl rfl rfl).2.1⟩

/-- C9. `open_read_only_pool` always passes read-only, no-create options
to the driver, so connecting to a nonexistent file returns an error instead
of creating an empty database, and a successful connection never carries
write capability. -/
theorem read_only_connect :
    open_read_only_opts.read_only = true
    ∧ open_read_only_opts.create_if_missing = false
    ∧ (∀ fileExists : Bool, fileExists = false →
        open_read_only_pool fileExists =
          Except.error "unable to open database file")
    ∧ (∀ (fileExists : Bool) (conn : SqliteConn),
        open_read_only_pool fileExists = Except.ok conn →
          conn.writable = false) := by
  refine ⟨rfl, rfl, ?_, ?_⟩
  · intro fileExists h
    subst h
    rfl
  · intro fileExists conn h
    cases fileExists with
    | false => exact absurd h (by simp [open_read_only_pool, sqlite_connect,
        open_read_only_opts])
    | true =>
        have h2 : ({ writable := false } : SqliteConn) = conn := Except.ok.inj h
        rw [← h2]

/-- Witness for C9 at concrete inputs: connecting with the file absent
errors, and the connection obtained with the file present is not writable. -/
theorem read_only_connect_witness :
    open_read_only_pool false = Except.error "unable to open database file"
    ∧ ({ writable := false } : SqliteConn).writable = false :=
  ⟨read_only_connect.2.2.1 false rfl,
   read_only_connect.2.2.2 true { writable := false } rfl⟩

/-! ### The latest-state query -/

theorem foldr_max_mem (l : List Nat) (h : l ≠ []) : l.foldr max 0 ∈ l := by
  induction l with
  | nil => exact absurd rfl h
  | cons a rest ih =>
      cases rest with
      | nil => simp
      | cons b rest2 =>
          have ih2 := ih (by simp)
          rw [List.foldr_cons]
          rcases max_choice a ((b :: rest2).foldr max 0) with h2 | h2 <;> rw [h2]
          · exact List.mem_cons_self _ _
          · exact List.mem_cons_of_mem _ ih2

theorem foldr_max_le (l : List Nat) (x : Nat) (hx : x ∈ l) :
    x ≤ l.foldr max 0 := by
  induction l with
  | nil => simp at hx
  | cons a rest ih =>
      rw [List.foldr_cons]
      rcases List.mem_cons.mp hx with rfl | hx2
      · exact le_max_left _ _
      · exact le_trans (ih hx2) (le_max_right _ _)

theorem groupMaxId_attained (t : List DbRow) (sid : String)
    (h : sid ∈ distinctSwapIds t) :
    ∃ r ∈ t, r.swap_id = sid ∧ r.id = groupMaxId t sid := by
  have hmem : sid ∈ t.map (·.swap_id) := List.mem_dedup.mp h
  obtain ⟨r0, hr0, hsid0⟩ := List.mem_map.mp hmem
  have hfil : r0 ∈ t.filter (fun r => decide (r.swap_id = sid)) :=
    List.mem_filter.mpr ⟨hr0, by simp [hsid0]⟩
  have hne : ((t.filter (fun r => decide (r.swap_id = sid))).map (·.id)) ≠ [] := by
    intro hempty
    rw [List.map_eq_nil_iff] at hempty
    rw [hempty] at hfil
    simp at hfil
  have hmax := foldr_max_mem _ hne
  obtain ⟨r, hrfil, hrid⟩ := List.mem_map.mp hmax
  obtain ⟨hrt, hrsid⟩ := List.mem_filter.mp hrfil
  exact ⟨r, hrt, by simpa using hrsid, hrid⟩

theorem groupMaxId_ge (t : List DbRow) (r : DbRow) (hr : r ∈ t) :
    r.id ≤ groupMaxId t r.swap_id := by
  apply foldr_max_le
  apply List.mem_map.mpr
  refine ⟨r, ?_, rfl⟩
  apply List.mem_filter.mpr
  exact ⟨hr, by simp⟩

theorem nodup_id_inj (t : List DbRow) (hids : (t.map (·.id)).Nodup)
    (r r' : DbRow) (hr : r ∈ t) (hr' : r' ∈ t) (h : r.id = r'.id) : r = r' :=
  List.inj_on_of_nodup_map hids hr hr' h

theorem mem_latest_filter_iff (t : List DbRow) (hids : (t.map (·.id)).Nodup)
    (r : DbRow) :
    r ∈ t.filter (fun r => decide (r.id ∈ maxIdSet t)) ↔
      r ∈ t ∧ r.id = groupMaxId t r.swap_id := by
  constructor
  · intro h
    obtain ⟨hrt, hrmax⟩ := List.mem_filter.mp h
    have hrmax2 : r.id ∈ maxIdSet t := by simpa using hrmax
    obtain ⟨sid, hsid, hgm⟩ := List.mem_map.mp hrmax2
    obtain ⟨r', hr't, hr'sid, hr'id⟩ := groupMaxId_attained t sid hsid
    have : r' = r := nodup_id_inj t hids r' r hr't hrt (hr'id.trans hgm)
    subst this
    exact ⟨hrt, hr'id.trans (by rw [hr'sid])⟩
  · intro ⟨hrt, hrid⟩
    refine List.mem_filter.mpr ⟨hrt, ?_⟩
    have hsid : r.swap_id ∈ distinctSwapIds t :=
      List.mem_dedup.mpr (List.mem_map_of_mem (·.swap_id) hrt)
    have : r.id ∈ maxIdSet t := by
      rw [hrid]
      exact List.mem_map_of_mem (groupMaxId t) hsid
    simpa using this

theorem latest_filter_ids_nodup (t : List DbRow)
    (hids : (t.map (·.id)).Nodup) :
    ((t.filter (fun r => decide (r.id ∈ maxIdSet t))).map (·.swap_id)).Nodup := by
  have hnt : t.Nodup := hids.of_map
  have hnf : (t.filter (fun r => decide (r.id ∈ maxIdSet t))).Nodup :=
    hnt.filter _
  apply hnf.map_on
  intro x hx y hy hxy
  have hx2 := (mem_latest_filter_iff t hids x).mp hx
  have hy2 := (mem_latest_filter_iff t hids y).mp hy
  apply nodup_id_inj t hids x y hx2.1 hy2.1
  rw [hx2.2, hy2.2, hxy]

theorem latest_filter_ids_iff (t : List DbRow) (hids : (t.map (·.id)).Nodup)
    (sid : String) :
    sid ∈ (t.filter (fun r => decide (r.id ∈ maxIdSet t))).map (·.swap_id) ↔
      sid ∈ distinctSwapIds t := by
  constructor
  · intro h
    obtain ⟨r, hrfil, hrsid⟩ := List.mem_map.mp h
    have hrt := (List.mem_filter.mp hrfil).1
    exact List.mem_dedup.mpr (hrsid ▸ List.mem_map_of_mem (·.swap_id) hrt)
  · intro h
    obtain ⟨r, hrt, hrsid, hrid⟩ := groupMaxId_attained t sid h
    have : r ∈ t.filter (fun r => decide (r.id ∈ maxIdSet t)) :=
      (mem_latest_filter_iff t hids r).mpr ⟨hrt, by rw [hrid, hrsid]⟩
    exact hrsid ▸ List.mem_map_of_mem (·.swap_id) this

theorem latest_filter_length (t : List DbRow) (hids : (t.map (·.id)).Nodup) :
    (t.filter (fun r => decide (r.id ∈ maxIdSet t))).length =
      (distinctSwapIds t).length := by
  have hperm : ((t.filter (fun r => decide (r.id ∈ maxIdSet t))).map
      (·.swap_id)).Perm (distinctSwapIds t) :=
    (List.perm_ext_iff_of_nodup (latest_filter_ids_nodup t hids)
      (List.nodup_dedup _)).mpr (latest_filter_ids_iff t hids)
  have := hperm.length_eq
  rwa [List.length_map] at this

/-- C2. Over any contents of the append-only `swap_states` table (row
ids unique, as SQLite rowids are), the latest-state query returns exactly
one record per distinct `swap_id` — each a row of the table whose id is
maximal among its identifier's rows — sorted by `entered_at` descending,
and an empty table yields the empty list rather than an error. -/
theorem latest_state_query (t : List DbRow) (hids : (t.map (·.id)).Nodup) :
    (fetch_swaps_model t).length = (distinctSwapIds t).length
    ∧ (∀ r ∈ fetch_swaps_model t, r ∈ t ∧
        ∀ r' ∈ t, r'.swap_id = r.swap_id → r'.id ≤ r.id)
    ∧ List.Sorted entDesc (fetch_swaps_model t)
    ∧ (t = [] → fetch_swaps_model t = []) := by
  refine ⟨?_, ?_, ?_, ?_⟩
  · rw [fetch_swaps_model, List.length_insertionSort]
    exact latest_filter_length t hids
  · intro r hr
    have hr2 : r ∈ t.filter (fun r => decide (r.id ∈ maxIdSet t)) :=
      (List.mem_insertionSort entDesc).mp hr
    obtain ⟨hrt, hrmax⟩ := (mem_latest_filter_iff t hids r).mp hr2
    refine ⟨hrt, fun r' hr't hsid => ?_⟩
    have hle := groupMaxId_ge t r' hr't
    rw [hsid] at hle
    rwa [← hrmax] at hle
  · exact List.sorted_insertionSort entDesc _
  · intro h
    subst h
    rfl

/-- Witness for C2 at a concrete table: three transition rows over two
identifiers yield exactly two records, and the empty table yields the
empty list. -/
theorem latest_state_query_witness :
    (fetch_swaps_model
      [⟨1, "a", "Started", "t1"⟩, ⟨2, "a", "BtcRedeemed", "t2"⟩,
       ⟨3, "b", "Started", "t3"⟩]).length = 2
    ∧ fetch_swaps_model [] = [] :=
  ⟨((latest_state_query
      [⟨1, "a", "Started", "t1"⟩, ⟨2, "a", "BtcRedeemed", "t2"⟩,
       ⟨3, "b", "Started", "t3"⟩] (by decide)).1).trans (by decide),
   (latest_state_query [] (by decide)).2.2.2 rfl⟩

/-- The latest-state query yields pairwise-distinct identifiers: this is
the property that justifies the distinct-identifier hypotheses placed on
the change-tracker results above. -/
theorem fetch_swaps_ids_nodup (t : List DbRow) (hids : (t.map (·.id)).Nodup) :
    ((fetch_swaps_model t).map (·.swap_id)).Nodup := by
  have hperm : (fetch_swaps_model t).Perm
      (t.filter (fun r => decide (r.id ∈ maxIdSet t))) :=
    List.perm_insertionSort entDesc _
  exact ((hperm.map (·.swap_id)).nodup_iff).mpr (latest_filter_ids_nodup t hids)
